import Mathlib

/-!
Verification of the rdb repository's connection-string decoder and
isolation-level constants.

The Go code is shallowly embedded at the byte level: a Go `string` is a
`List Nat` of its bytes (`GoString`), so slicing such as `u.Path[1:]`,
`strings.Split`, and percent-decoding are modelled exactly as the source
performs them.  The repository function `ParseConfigURL`
(store/unnamed source file, lines 66-137) is translated together with the
standard-library routines it calls: `net/url.Parse` (restricted to the
features reachable from `ParseConfigURL`: scheme, authority with
userinfo/host/port, path, query, fragment, percent-escapes),
`net/url.Values` with `URL.Query`, `strconv.ParseUint`, `strconv.Atoi`
and `time.ParseDuration`.  Every definition follows the corresponding Go
source; deviations forced by the embedding (exact integer arithmetic in
place of `float64` for fractional durations, an association list in place
of Go's unordered map) are noted next to the definition and do not affect
any property proved below.

Go functions that return `(value, error)` pairs are modelled with
`Except String`; `ParseConfigURL` itself is modelled with `GoResult`,
which adds a `panicked` outcome because the function can reach a write to
the nil map `conf.KV` (a runtime panic in Go, "assignment to entry in nil
map").
-/

deriving instance DecidableEq for Except

namespace Rdb

/-- A Go string: the list of its bytes. -/
abbrev GoString := List Nat

/-- UTF-8 encoding of one code point, used to turn Lean string literals
into Go byte strings. -/
def utf8Bytes (n : Nat) : List Nat :=
  if n < 128 then [n]
  else if n < 2048 then [192 + n / 64, 128 + n % 64]
  else if n < 65536 then [224 + n / 4096, 128 + (n / 64) % 64, 128 + n % 64]
  else [240 + n / 262144, 128 + (n / 4096) % 64, 128 + (n / 64) % 64, 128 + n % 64]

/-- The Go string literal with the same characters as a Lean string. -/
def goStr (s : String) : GoString :=
  s.data.foldr (fun c acc => utf8Bytes c.toNat ++ acc) []

/-- 48 ≤ b ≤ 57, the byte of a decimal digit. -/
def isDigitB (b : Nat) : Bool := decide (48 ≤ b ∧ b ≤ 57)

/-- Byte of an ASCII letter. -/
def isAlphaB (b : Nat) : Bool := decide ((65 ≤ b ∧ b ≤ 90) ∨ (97 ≤ b ∧ b ≤ 122))

/-- Models `strings.HasPrefix`. -/
def startsWith (s p : GoString) : Bool := p.isPrefixOf s

/-- Models `strings.HasSuffix`. -/
def endsWith (s p : GoString) : Bool := p.isSuffixOf s

/-- Models the `split` helper of net/url: cut at the first occurrence of a
byte, dropping it when `cutc` is true. -/
def goSplit (s : GoString) (sep : Nat) (cutc : Bool) : GoString × GoString :=
  match s.findIdx? (· == sep) with
  | none => (s, [])
  | some i => (s.take i, if cutc then s.drop (i + 1) else s.drop i)

/-- Models `strings.Cut` for a one-byte separator. -/
def cutByte (s : GoString) (sep : Nat) : GoString × GoString × Bool :=
  match s.findIdx? (· == sep) with
  | none => (s, [], false)
  | some i => (s.take i, s.drop (i + 1), true)

/-- Models `strings.Split` for a one-byte separator. -/
def splitOnByte : GoString → Nat → List GoString
  | [], _ => [[]]
  | b :: rest, c =>
    if b = c then [] :: splitOnByte rest c
    else
      match splitOnByte rest c with
      | [] => [[b]]
      | h :: t => (b :: h) :: t

/-- Models `strings.LastIndexByte`. -/
def lastIndexByte (s : GoString) (c : Nat) : Option Nat :=
  match s.reverse.findIdx? (· == c) with
  | none => none
  | some i => some (s.length - 1 - i)

/-- Models `strings.Index` for a byte-string pattern. -/
def indexOfSeq : GoString → GoString → Option Nat
  | s, pat =>
    if pat.isPrefixOf s then some 0
    else
      match s with
      | [] => none
      | _ :: rest => (indexOfSeq rest pat).map (· + 1)

/-- Models `strings.ToLower` on the ASCII-only strings it is applied to
here (URL schemes, which `getScheme` validates as ASCII). -/
def toLowerASCII (s : GoString) : GoString :=
  s.map (fun b => if 65 ≤ b ∧ b ≤ 90 then b + 32 else b)

/-- Models net/url `stringContainsCTLByte`. -/
def containsCTL (s : GoString) : Bool := s.any (fun b => decide (b < 32 ∨ b = 127))

/-- Escaping context of net/url `unescape`, determining which bytes and
escapes are legal. -/
inductive EncMode where
  | host
  | zone
  | userPassword
  | pathMode
  | queryComp
  | fragMode
deriving DecidableEq

/-- Hex digit test for percent-escapes. -/
def ishexB (b : Nat) : Bool :=
  decide ((48 ≤ b ∧ b ≤ 57) ∨ (97 ≤ b ∧ b ≤ 102) ∨ (65 ≤ b ∧ b ≤ 70))

/-- Value of a hex digit byte. -/
def unhexB (b : Nat) : Nat :=
  if 48 ≤ b ∧ b ≤ 57 then b - 48
  else if 97 ≤ b ∧ b ≤ 102 then b - 97 + 10
  else if 65 ≤ b ∧ b ≤ 70 then b - 65 + 10
  else 0

/-- Bytes net/url `shouldEscape` permits unescaped inside a host:
alphanumerics, the RFC 3986 unreserved marks and the sub-delims the Go
implementation additionally allows. -/
def hostLiteralOK (b : Nat) : Bool :=
  isDigitB b || isAlphaB b ||
  [45, 46, 95, 126, 33, 36, 38, 39, 40, 41, 42, 43, 44, 59, 61, 58, 91, 93, 60, 62, 34].contains b

/-- Models net/url `unescape`: percent-decodes, rejecting malformed
escapes; in host mode rejects escapes of ASCII bytes (except the literal
percent escape 37-50-53) and rejects literal bytes a host may not
contain; in query-component mode a plus decodes to a space. -/
def unescape : GoString → EncMode → Except String GoString
  | [], _ => .ok []
  | 37 :: rest, mode =>
    match rest with
    | h1 :: h2 :: rest2 =>
      if ¬ (ishexB h1 ∧ ishexB h2) then .error "invalid URL escape"
      else if mode = .host ∧ unhexB h1 < 8 ∧ ¬ (h1 = 50 ∧ h2 = 53) then
        .error "invalid URL escape"
      else
        match unescape rest2 mode with
        | .error e => .error e
        | .ok t => .ok ((unhexB h1 * 16 + unhexB h2) :: t)
    | _ => .error "invalid URL escape"
  | 43 :: rest, mode =>
    match unescape rest mode with
    | .error e => .error e
    | .ok t => .ok ((if mode = .queryComp then 32 else 43) :: t)
  | b :: rest, mode =>
    if (mode = .host ∨ mode = .zone) ∧ b < 128 ∧ ¬ hostLiteralOK b then
      .error "invalid character in host name"
    else
      match unescape rest mode with
      | .error e => .error e
      | .ok t => .ok (b :: t)

/-- Models net/url `getScheme`: the accumulator holds the scheme bytes
seen so far, `orig` is returned whole when no scheme is present. -/
def getSchemeAux (orig : GoString) : GoString → GoString → Except String (GoString × GoString)
  | [], _ => .ok ([], orig)
  | c :: rest, acc =>
    if isAlphaB c then getSchemeAux orig rest (acc ++ [c])
    else if isDigitB c ∨ c = 43 ∨ c = 45 ∨ c = 46 then
      if acc = [] then .ok ([], orig) else getSchemeAux orig rest (acc ++ [c])
    else if c = 58 then
      if acc = [] then .error "missing protocol scheme"
      else .ok (acc, rest)
    else .ok ([], orig)

/-- Models net/url `getScheme`. -/
def getScheme (raw : GoString) : Except String (GoString × GoString) :=
  getSchemeAux raw raw []

/-- Models net/url `validOptionalPort`: empty, or a colon followed by
decimal digits (possibly none). -/
def validOptionalPort (port : GoString) : Bool :=
  match port with
  | [] => true
  | 58 :: rest => rest.all isDigitB
  | _ => false

/-- Bytes net/url `validUserinfo` accepts.  The Go loop ranges over
runes, but a byte-wise check is equivalent: every accepted rune is a
one-byte ASCII character, and any byte at or above 128 belongs to a rune
the Go loop rejects. -/
def userinfoByteOK (b : Nat) : Bool :=
  isAlphaB b || isDigitB b ||
  [45, 46, 95, 58, 126, 33, 36, 38, 39, 40, 41, 42, 43, 44, 59, 61, 37, 64].contains b

/-- Models net/url `validUserinfo`. -/
def validUserinfo (s : GoString) : Bool := s.all userinfoByteOK

/-- Models net/url `parseHost`: a bracketed IPv6 literal (with optional
percent-25 zone) or a plain host, with the text after the last colon
validated as an optional port before the whole host is percent-decoded. -/
def parseHost (host : GoString) : Except String GoString :=
  if startsWith host [91] then
    match lastIndexByte host 93 with
    | none => .error "missing right bracket in host"
    | some i =>
      if ¬ validOptionalPort (host.drop (i + 1)) then .error "invalid port after host"
      else
        match indexOfSeq (host.take i) [37, 50, 53] with
        | some zone =>
          match unescape (host.take zone) .host,
                unescape ((host.take i).drop zone) .zone,
                unescape (host.drop i) .host with
          | .ok h1, .ok h2, .ok h3 => .ok (h1 ++ h2 ++ h3)
          | .error e, _, _ => .error e
          | _, .error e, _ => .error e
          | _, _, .error e => .error e
        | none => unescape host .host
  else
    match lastIndexByte host 58 with
    | some i =>
      if ¬ validOptionalPort (host.drop i) then .error "invalid port after host"
      else unescape host .host
    | none => unescape host .host

/-- Userinfo of a URL, as in net/url: `Username()` returns `username`,
and `Password()` returns `password` (empty when it was never set). -/
structure Userinfo where
  username : GoString
  password : GoString
  passwordSet : Bool
deriving DecidableEq, Repr

/-- Models net/url `parseAuthority`: the text before the last at-sign is
userinfo (validated, then percent-decoded around the first colon), the
rest is the host. -/
def parseAuthority (authority : GoString) : Except String (Option Userinfo × GoString) :=
  match lastIndexByte authority 64 with
  | none =>
    match parseHost authority with
    | .error e => .error e
    | .ok h => .ok (none, h)
  | some i =>
    match parseHost (authority.drop (i + 1)) with
    | .error e => .error e
    | .ok h =>
      let userinfo := authority.take i
      if ¬ validUserinfo userinfo then .error "invalid userinfo"
      else if ¬ userinfo.contains 58 then
        match unescape userinfo .userPassword with
        | .error e => .error e
        | .ok un => .ok (some { username := un, password := [], passwordSet := false }, h)
      else
        let (uname, pword, _) := cutByte userinfo 58
        match unescape uname .userPassword, unescape pword .userPassword with
        | .error e, _ => .error e
        | _, .error e => .error e
        | .ok un, .ok pw => .ok (some { username := un, password := pw, passwordSet := true }, h)

/-- The parts of net/url's `URL` that `ParseConfigURL` can observe. -/
structure URL where
  Scheme : GoString
  Opaque : GoString
  User : Option Userinfo
  Host : GoString
  Path : GoString
  RawQuery : GoString
  ForceQuery : Bool
  Fragment : GoString
deriving DecidableEq, Repr

/-- The zero `URL`. -/
def emptyURL : URL :=
  { Scheme := [], Opaque := [], User := none, Host := [], Path := [],
    RawQuery := [], ForceQuery := false, Fragment := [] }

/-- Models net/url `parse` with `viaRequest = false`: control-byte check,
the literal asterisk URL, scheme extraction and lowering, query split (or
a trailing question mark recorded as ForceQuery), the opaque form for
rootless paths under a scheme, the colon check on the first path segment
of schemeless references, authority parsing after a double slash, and
percent-decoding of the remaining path. -/
def parseRef (rawURL : GoString) : Except String URL := do
  if containsCTL rawURL then
    throw "invalid control character in URL"
  if rawURL = [42] then
    return { emptyURL with Path := [42] }
  let (scheme0, rest0) ← getScheme rawURL
  let scheme := toLowerASCII scheme0
  let (rest, rawQuery, forceQuery) :=
    if endsWith rest0 [63] ∧ ¬ rest0.dropLast.contains 63 then
      (rest0.dropLast, ([] : GoString), true)
    else
      let (r, q) := goSplit rest0 63 true
      (r, q, false)
  if ¬ startsWith rest [47] then
    if scheme ≠ [] then
      return { emptyURL with
                Scheme := scheme, Opaque := rest, RawQuery := rawQuery,
                ForceQuery := forceQuery }
    if (cutByte rest 47).1.contains 58 then
      throw "first path segment in URL cannot contain colon"
  let (user, host, rest2) ←
    if (scheme ≠ [] ∨ ¬ startsWith rest [47, 47, 47]) ∧ startsWith rest [47, 47] then do
      let (authority, r) := goSplit (rest.drop 2) 47 false
      let (u, h) ← parseAuthority authority
      pure (u, h, r)
    else
      pure ((none : Option Userinfo), ([] : GoString), rest)
  let p ← unescape rest2 .pathMode
  return { Scheme := scheme, Opaque := [], User := user, Host := host, Path := p,
           RawQuery := rawQuery, ForceQuery := forceQuery, Fragment := [] }

/-- Models net/url `Parse`: the fragment is cut off first, the rest is
parsed as a URL, and a non-empty fragment is percent-decoded. -/
def urlParse (rawURL : GoString) : Except String URL := do
  let (u0, frag) := goSplit rawURL 35 true
  let url ← parseRef u0
  if frag = [] then
    return url
  let f ← unescape frag .fragMode
  return { url with Fragment := f }

/-- Models net/url `Values`: the Go map from key to list of values is an
association list here.  Go's map is unordered; the list order is only
ever observed by the final range loop of `ParseConfigURL`, which panics
on its first iteration whatever the order, so the choice is immaterial. -/
abbrev Values := List (GoString × List GoString)

/-- Models `m[key] = append(m[key], value)` of `parseQuery`. -/
def valuesAdd : Values → GoString → GoString → Values
  | [], k, v => [(k, [v])]
  | (k0, vs) :: rest, k, v =>
    if k0 = k then (k0, vs ++ [v]) :: rest
    else (k0, vs) :: valuesAdd rest k v

/-- Models `Values.Get`: the first value of the key, or empty. -/
def valuesGet (m : Values) (k : GoString) : GoString :=
  match m with
  | [] => []
  | (k0, vs) :: rest => if k0 = k then vs.headD [] else valuesGet rest k

/-- Models `Values.Del`. -/
def valuesDel (m : Values) (k : GoString) : Values :=
  m.filter (fun kv => decide (kv.1 ≠ k))

/-- Models net/url `ParseQuery` as called through `URL.Query`, which
drops the error: pairs are split on ampersands (Go's repeated
`strings.Cut` visits exactly the pieces of this split), pairs containing
a semicolon or failing percent-decoding are skipped, the rest are split
at the first equals sign and query-unescaped. -/
def ParseQuery (query : GoString) : Values :=
  let pieces := if query = [] then [] else splitOnByte query 38
  pieces.foldl
    (fun m piece =>
      if piece.contains 59 then m
      else if piece = [] then m
      else
        let (k, v, _) := cutByte piece 61
        match unescape k .queryComp, unescape v .queryComp with
        | .ok k1, .ok v1 => valuesAdd m k1 v1
        | _, _ => m)
    []

/-- Models `strconv.ParseUint(s, 10, 16)`: a non-empty all-digit string
whose value fits in 16 bits.  Go detects overflow while accumulating;
computing the full value first yields the same ok/error outcome, and the
caller only tests the error. -/
def parseUint16 (s : GoString) : Except String Nat :=
  if s = [] ∨ ¬ s.all isDigitB then .error "strconv ParseUint invalid syntax"
  else
    let n : Nat := s.foldl (fun a b => a * 10 + (b - 48)) 0
    if n > 65535 then .error "strconv ParseUint value out of range"
    else .ok n

/-- Models `strconv.Atoi`, that is `strconv.ParseInt(s, 10, 0)` on a
64-bit platform: an optional sign, then a non-empty digit string, with
the signed value required to fit in 64 bits. -/
def Atoi (s : GoString) : Except String Int :=
  let signDigits : Bool × GoString :=
    match s with
    | 45 :: rest => (true, rest)
    | 43 :: rest => (false, rest)
    | _ => (false, s)
  let neg := signDigits.1
  let digits := signDigits.2
  if digits = [] ∨ ¬ digits.all isDigitB then .error "strconv Atoi invalid syntax"
  else
    let n : Nat := digits.foldl (fun a b => a * 10 + (b - 48)) 0
    if neg then
      if n > 2 ^ 63 then .error "strconv Atoi value out of range" else .ok (-(n : Int))
    else
      if n > 2 ^ 63 - 1 then .error "strconv Atoi value out of range" else .ok (n : Int)

/-- Models the `unitMap` of `time.ParseDuration`, in nanoseconds; the
two-byte sequences 194-181 and 206-188 are the UTF-8 forms of the two
micro signs Go accepts. -/
def unitMap (u : GoString) : Option Nat :=
  if u = [110, 115] then some 1
  else if u = [117, 115] then some 1000
  else if u = [194, 181, 115] then some 1000
  else if u = [206, 188, 115] then some 1000
  else if u = [109, 115] then some 1000000
  else if u = [115] then some 1000000000
  else if u = [109] then some 60000000000
  else if u = [104] then some 3600000000000
  else none

/-- Models `time.leadingInt`: consume leading digits into an unsigned
accumulator, failing on overflow past 2^63. -/
def leadingInt : GoString → Nat → Except Unit (Nat × GoString)
  | [], x => .ok (x, [])
  | c :: rest, x =>
    if isDigitB c then
      if x > 2 ^ 63 / 10 then .error ()
      else
        let y := x * 10 + (c - 48)
        if y > 2 ^ 63 then .error () else leadingInt rest y
    else .ok (x, c :: rest)

/-- Models `time.leadingFraction`: consume digits after the decimal
point, silently stopping the accumulation (but not the consumption) on
overflow; returns the accumulated value, the power-of-ten scale and the
remainder. -/
def leadingFraction : GoString → Nat → Nat → Bool → Nat × Nat × GoString
  | [], x, scale, _ => (x, scale, [])
  | c :: rest, x, scale, overflow =>
    if isDigitB c then
      if overflow then leadingFraction rest x scale true
      else if x > (2 ^ 63 - 1) / 10 then leadingFraction rest x scale true
      else
        let y := x * 10 + (c - 48)
        if y > 2 ^ 63 then leadingFraction rest x scale true
        else leadingFraction rest y (scale * 10) false
    else (x, scale, c :: rest)

/-- Loop body of `time.ParseDuration`: one decimal number with optional
fraction followed by a unit, repeated.  Each iteration consumes at least
the unit byte, so fuel equal to the length of the string plus one never
runs out; the Go float64 rounding of the fractional contribution is
modelled by exact integer arithmetic with truncating division, which
agrees on every duration without a fractional part. -/
def parseDurationLoop : Nat → GoString → Nat → Except String Nat
  | 0, _, _ => .error "time invalid duration"
  | _ + 1, [], d => .ok d
  | fuel + 1, c :: s0, d =>
    if ¬ (c = 46 ∨ isDigitB c) then .error "time invalid duration"
    else
      match leadingInt (c :: s0) 0 with
      | .error _ => .error "time invalid duration"
      | .ok (v, s1) =>
        let pre := decide (s1.length ≠ (c :: s0).length)
        let fss : Nat × Nat × GoString × Bool :=
          match s1 with
          | 46 :: s1t =>
            let (f, sc, s2) := leadingFraction s1t 0 1 false
            (f, sc, s2, decide (s2.length ≠ s1t.length))
          | _ => (0, 1, s1, false)
        let f := fss.1
        let scale := fss.2.1
        let s2 := fss.2.2.1
        let post := fss.2.2.2
        if ¬ pre ∧ ¬ post then .error "time invalid duration"
        else
          let i := s2.findIdx (fun b => b == 46 || isDigitB b)
          if i = 0 then .error "time missing unit in duration"
          else
            match unitMap (s2.take i) with
            | none => .error "time unknown unit in duration"
            | some unit =>
              if v > 2 ^ 63 / unit then .error "time invalid duration"
              else
                let v1 := v * unit
                let v2 := if f > 0 then v1 + f * unit / scale else v1
                if v2 > 2 ^ 63 then .error "time invalid duration"
                else
                  let d1 := d + v2
                  if d1 > 2 ^ 63 then .error "time invalid duration"
                  else parseDurationLoop fuel (s2.drop i) d1

/-- Models `time.ParseDuration`, returning nanoseconds as a signed
64-bit quantity. -/
def ParseDuration (s : GoString) : Except String Int :=
  let signDigits : Bool × GoString :=
    match s with
    | 45 :: rest => (true, rest)
    | 43 :: rest => (false, rest)
    | _ => (false, s)
  let neg := signDigits.1
  let s1 := signDigits.2
  if s1 = [48] then .ok 0
  else if s1 = [] then .error "time invalid duration"
  else
    match parseDurationLoop (s1.length + 1) s1 0 with
    | .error e => .error e
    | .ok d =>
      if neg then .ok (-(d : Int))
      else if d > 2 ^ 63 - 1 then .error "time invalid duration out of range"
      else .ok (d : Int)

/-- The `Isolation` type of rdb.go: a byte.  The eight levels are
declared with `iota`, which assigns zero to the first constant and one
more than the previous to each following constant. -/
abbrev Isolation := Nat

/-- First isolation constant of the `iota` block. -/
def IsoDefault : Isolation := 0

/-- Second isolation constant: one past the previous. -/
def IsoReadUncommited : Isolation := IsoDefault + 1

/-- Third isolation constant. -/
def IsoReadCommited : Isolation := IsoReadUncommited + 1

/-- Fourth isolation constant. -/
def IsoWriteCommited : Isolation := IsoReadCommited + 1

/-- Fifth isolation constant. -/
def IsoRepeatableRead : Isolation := IsoWriteCommited + 1

/-- Sixth isolation constant. -/
def IsoSerializable : Isolation := IsoRepeatableRead + 1

/-- Seventh isolation constant. -/
def IsoSnapshot : Isolation := IsoSerializable + 1

/-- Eighth isolation constant. -/
def IsoLinearizable : Isolation := IsoSnapshot + 1

/-- The `Config` struct of the repository.  Go zero values: empty
strings, zero numbers, false booleans, and a nil `KV` map, modelled as
`none` (a non-nil map, even empty, would be `some`). -/
structure Config where
  DriverName : GoString
  Raw : GoString
  Username : GoString
  Password : GoString
  Hostname : GoString
  Port : Int
  Instance : GoString
  Database : GoString
  PoolIdleTimeout : Int
  PoolInitCapacity : Int
  PoolMaxCapacity : Int
  Secure : Bool
  InsecureSkipVerify : Bool
  KV : Option (List (GoString × List GoString))
deriving DecidableEq, Repr

/-- Outcome of running a Go function that may return a value, return an
error, or panic. -/
inductive GoResult (α : Type) where
  | ok (a : α)
  | err (e : String)
  | panicked (msg : String)
deriving DecidableEq, Repr

/-- Lines 76-89 of `ParseConfigURL`: split the URL host on colons; the
piece before the first colon is the hostname, and when a colon is
present the second piece must parse as a 16-bit unsigned port. -/
def hostPortOf (uHost : GoString) : Except String (GoString × Int) :=
  if uHost.length > 0 then
    let hostPort := splitOnByte uHost 58
    let host := hostPort.headD []
    if hostPort.length > 1 then
      match parseUint16 (hostPort.getD 1 []) with
      | .error e => .error e
      | .ok p => .ok (host, (p : Int))
    else .ok (host, 0)
  else .ok ([], 0)

/-- Result of lines 100-127 of `ParseConfigURL`: the recognized query
options and the leftover values after the four deletions. -/
structure QueryOpts where
  Database : GoString
  PoolIdleTimeout : Int
  PoolInitCapacity : Int
  PoolMaxCapacity : Int
  leftover : Values
deriving DecidableEq, Repr

/-- Query key of the initial database option. -/
def keyDb : GoString := goStr "db"

/-- Query key of the idle-timeout option. -/
def keyIdleTimeout : GoString := goStr "idle_timeout"

/-- Query key of the initial pool capacity option. -/
def keyInitCap : GoString := goStr "init_cap"

/-- Query key of the maximum pool capacity option. -/
def keyMaxCap : GoString := goStr "max_cap"

/-- Lines 100-127 of `ParseConfigURL`: read `db`, then parse
`idle_timeout`, `init_cap` and `max_cap` when present and non-empty,
deleting each key in turn; any parse error aborts the decode. -/
def queryOptions (val0 : Values) : Except String QueryOpts :=
  let database := valuesGet val0 keyDb
  let val1 := valuesDel val0 keyDb
  let stIdle := valuesGet val1 keyIdleTimeout
  match (if stIdle = [] then Except.ok 0 else ParseDuration stIdle) with
  | .error e => .error e
  | .ok idle =>
    let val2 := valuesDel val1 keyIdleTimeout
    let stInit := valuesGet val2 keyInitCap
    match (if stInit = [] then Except.ok 0 else Atoi stInit) with
    | .error e => .error e
    | .ok initCap =>
      let val3 := valuesDel val2 keyInitCap
      let stMax := valuesGet val3 keyMaxCap
      match (if stMax = [] then Except.ok 0 else Atoi stMax) with
      | .error e => .error e
      | .ok maxCap =>
        .ok { Database := database, PoolIdleTimeout := idle,
              PoolInitCapacity := initCap, PoolMaxCapacity := maxCap,
              leftover := valuesDel val3 keyMaxCap }

/-- Lines 66-137 of the repository: `ParseConfigURL`.  The final range
loop copies leftover query pairs into `conf.KV`; `conf` is built without
initializing `KV`, so in Go that map is nil and the first assignment
panics with the runtime message "assignment to entry in nil map" — hence
the `panicked` outcome whenever any unrecognized query key remains. -/
def ParseConfigURL (connectionString : GoString) : GoResult Config :=
  match urlParse connectionString with
  | .error e => .err e
  | .ok u =>
    let user := match u.User with | none => [] | some ui => ui.username
    let pass := match u.User with | none => [] | some ui => ui.password
    match hostPortOf u.Host with
    | .error e => .err e
    | .ok (host, port) =>
      match queryOptions (ParseQuery u.RawQuery) with
      | .error e => .err e
      | .ok opts =>
        let conf : Config :=
          { DriverName := u.Scheme, Raw := connectionString,
            Username := user, Password := pass,
            Hostname := host, Port := port,
            Instance := if u.Path.length > 0 then u.Path.drop 1 else [],
            Database := opts.Database,
            PoolIdleTimeout := opts.PoolIdleTimeout,
            PoolInitCapacity := opts.PoolInitCapacity,
            PoolMaxCapacity := opts.PoolMaxCapacity,
            Secure := false, InsecureSkipVerify := false, KV := none }
        match opts.leftover with
        | [] => .ok conf
        | _ :: _ => .panicked "assignment to entry in nil map"

/-- Modelled from the spec: the Instance field is "the path segment
after the leading separator", that is the parsed path with its single
leading separator character removed when one is present. -/
def specStripLeadingSeparator (p : GoString) : GoString :=
  match p with
  | 47 :: rest => rest
  | other => other

/-- Input of the concrete round-trip example. -/
def c1Str : GoString :=
  goStr "pg://alice:secret@db.example.com:5432/primary?db=app&init_cap=2&max_cap=10&idle_timeout=30s"

/-- Config produced for `c1Str`. -/
def c1Cfg : Config :=
  { DriverName := goStr "pg", Raw := c1Str, Username := goStr "alice",
    Password := goStr "secret", Hostname := goStr "db.example.com", Port := 5432,
    Instance := goStr "primary", Database := goStr "app",
    PoolIdleTimeout := 30 * 1000000000, PoolInitCapacity := 2, PoolMaxCapacity := 10,
    Secure := false, InsecureSkipVerify := false, KV := none }

/-- A connection string that decodes successfully, with a userinfo, a
multi-colon host, a path, and all four recognized options; used to
instantiate the universally quantified theorems below. -/
def wStr : GoString :=
  goStr "pg://alice@h:7:9/files?db=d&init_cap=1&max_cap=2&idle_timeout=500ms"

/-- URL parsed from `wStr`. -/
def wURL : URL :=
  { Scheme := goStr "pg", Opaque := [],
    User := some { username := goStr "alice", password := [], passwordSet := false },
    Host := goStr "h:7:9", Path := goStr "/files",
    RawQuery := goStr "db=d&init_cap=1&max_cap=2&idle_timeout=500ms",
    ForceQuery := false, Fragment := [] }

/-- Config produced for `wStr`. -/
def wCfg : Config :=
  { DriverName := goStr "pg", Raw := wStr, Username := goStr "alice", Password := [],
    Hostname := goStr "h", Port := 7, Instance := goStr "files", Database := goStr "d",
    PoolIdleTimeout := 500000000, PoolInitCapacity := 1, PoolMaxCapacity := 2,
    Secure := false, InsecureSkipVerify := false, KV := none }

/-- Config produced for the option-free string used against the
pool-sizing claim. -/
def c5aCfg : Config :=
  { DriverName := goStr "pg", Raw := goStr "pg://h/", Username := [], Password := [],
    Hostname := goStr "h", Port := 0, Instance := [], Database := [],
    PoolIdleTimeout := 0, PoolInitCapacity := 0, PoolMaxCapacity := 0,
    Secure := false, InsecureSkipVerify := false, KV := none }

/-- Config produced for a string whose capacities violate the pool
sizing constraint. -/
def c5bCfg : Config :=
  { c5aCfg with
    Raw := goStr "pg://h/?init_cap=5&max_cap=2",
    PoolInitCapacity := 5,
    PoolMaxCapacity := 2 }

/-- URL parsed from the schemeless reference used against the Instance
claim. -/
def c6URL : URL := { emptyURL with Path := goStr "foo/bar" }

/-- Config produced for that schemeless reference: the first byte of the
path, not a separator, is removed. -/
def c6Cfg : Config :=
  { DriverName := [], Raw := goStr "foo/bar", Username := [], Password := [],
    Hostname := [], Port := 0, Instance := goStr "oo/bar", Database := [],
    PoolIdleTimeout := 0, PoolInitCapacity := 0, PoolMaxCapacity := 0,
    Secure := false, InsecureSkipVerify := false, KV := none }

/-!  Structural lemmas about the embedded helpers, shared by the claim
theorems below. -/

theorem splitOnByte_ne_nil (s : GoString) (c : Nat) : splitOnByte s c ≠ [] := by
  induction s with
  | nil => simp [splitOnByte]
  | cons b rest ih =>
    by_cases hb : b = c
    · simp [splitOnByte, hb]
    · simp only [splitOnByte, if_neg hb]
      cases hsp : splitOnByte rest c with
      | nil => simp
      | cons h t => simp

theorem splitOnByte_headD (s : GoString) (c : Nat) :
    (splitOnByte s c).headD [] = s.takeWhile (fun b => !(b == c)) := by
  induction s with
  | nil => simp [splitOnByte]
  | cons b rest ih =>
    by_cases hb : b = c
    · simp [splitOnByte, hb, List.takeWhile_cons]
    · simp only [splitOnByte, if_neg hb]
      cases hsp : splitOnByte rest c with
      | nil => exact absurd hsp (splitOnByte_ne_nil rest c)
      | cons h t =>
        rw [hsp] at ih
        simp only [List.headD_cons] at ih ⊢
        simp [List.takeWhile_cons, hb, ← ih]

theorem splitOnByte_gt_one_iff (s : GoString) (c : Nat) :
    1 < (splitOnByte s c).length ↔ s.contains c = true := by
  induction s with
  | nil => simp [splitOnByte]
  | cons b rest ih =>
    by_cases hb : b = c
    · simp only [splitOnByte, if_pos hb, List.length_cons]
      have hpos : 0 < (splitOnByte rest c).length :=
        List.length_pos.mpr (splitOnByte_ne_nil rest c)
      constructor
      · intro _; simp [List.contains_cons, hb]
      · intro _; omega
    · simp only [splitOnByte, if_neg hb]
      cases hsp : splitOnByte rest c with
      | nil => exact absurd hsp (splitOnByte_ne_nil rest c)
      | cons h t =>
        rw [hsp] at ih
        simp only [List.length_cons] at ih ⊢
        rw [List.contains_cons]
        have hbeq : (c == b) = false := by
          simp only [beq_eq_false_iff_ne, ne_eq]
          exact fun hx => hb hx.symm
        rw [hbeq, Bool.false_or]
        exact ih

theorem valuesGet_del_ne (m : Values) (k k1 : GoString) (hne : k1 ≠ k) :
    valuesGet (valuesDel m k) k1 = valuesGet m k1 := by
  induction m with
  | nil => rfl
  | cons kv rest ih =>
    obtain ⟨k0, vs⟩ := kv
    by_cases h0 : k0 = k
    · have hk01 : k0 ≠ k1 := by
        rw [h0]; exact fun hx => hne hx.symm
      simp only [valuesDel, List.filter_cons]
      rw [if_neg (by simp [h0])]
      show valuesGet (valuesDel rest k) k1 = valuesGet ((k0, vs) :: rest) k1
      rw [ih]
      simp [valuesGet, hk01]
    · simp only [valuesDel, List.filter_cons]
      rw [if_pos (by simp [h0])]
      show valuesGet ((k0, vs) :: valuesDel rest k) k1 = valuesGet ((k0, vs) :: rest) k1
      by_cases h01 : k0 = k1
      · simp [valuesGet, h01]
      · simp only [valuesGet, if_neg h01]
        exact ih

theorem hostPortOf_error {h : GoString} {e : String}
    (h1 : 1 < (splitOnByte h 58).length)
    (h2 : parseUint16 ((splitOnByte h 58).getD 1 []) = .error e) :
    hostPortOf h = .error e := by
  have hne : h ≠ [] := by
    intro hnil
    rw [hnil] at h1
    simp [splitOnByte] at h1
  simp only [hostPortOf]
  rw [if_pos (show h.length > 0 from List.length_pos.mpr hne)]
  rw [if_pos h1, h2]

theorem hostPortOf_ok_inv {h host : GoString} {port : Int}
    (hh : hostPortOf h = .ok (host, port)) :
    host = (splitOnByte h 58).headD []
    ∧ (1 < (splitOnByte h 58).length →
        ∃ n, parseUint16 ((splitOnByte h 58).getD 1 []) = .ok n ∧ port = (n : Int))
    ∧ (¬ 1 < (splitOnByte h 58).length → port = 0) := by
  by_cases hlen : h.length > 0
  · simp only [hostPortOf] at hh
    rw [if_pos hlen] at hh
    by_cases hl : 1 < (splitOnByte h 58).length
    · rw [if_pos hl] at hh
      rcases hp : parseUint16 ((splitOnByte h 58).getD 1 []) with e | n
      · rw [hp] at hh; simp at hh
      · rw [hp] at hh
        simp only [Except.ok.injEq, Prod.mk.injEq] at hh
        obtain ⟨hh1, hh2⟩ := hh
        exact ⟨hh1.symm, fun _ => ⟨n, rfl, hh2.symm⟩, fun hcon => absurd hl hcon⟩
    · rw [if_neg hl] at hh
      simp only [Except.ok.injEq, Prod.mk.injEq] at hh
      obtain ⟨hh1, hh2⟩ := hh
      exact ⟨hh1.symm, fun hc => absurd hc hl, fun _ => hh2.symm⟩
  · have hnil : h = [] := by
      cases h with
      | nil => rfl
      | cons a as => simp at hlen
    subst hnil
    simp only [hostPortOf] at hh
    simp at hh
    obtain ⟨hh1, hh2⟩ := hh
    constructor
    · exact hh1.trans (by decide)
    · constructor
      · intro hc; simp [splitOnByte] at hc
      · intro _; exact hh2.symm

theorem ParseConfigURL_err_of_hostPort {cs : GoString} {u : URL} {e : String}
    (hu : urlParse cs = .ok u) (hh : hostPortOf u.Host = .error e) :
    ParseConfigURL cs = .err e := by
  unfold ParseConfigURL
  rw [hu]
  simp only []
  rw [hh]

theorem queryOptions_ok_inv {val0 : Values} {opts : QueryOpts}
    (h : queryOptions val0 = .ok opts) :
    opts.Database = valuesGet val0 keyDb
    ∧ (valuesGet (valuesDel val0 keyDb) keyIdleTimeout = [] → opts.PoolIdleTimeout = 0)
    ∧ (valuesGet (valuesDel val0 keyDb) keyIdleTimeout ≠ [] →
        ParseDuration (valuesGet (valuesDel val0 keyDb) keyIdleTimeout)
          = .ok opts.PoolIdleTimeout)
    ∧ (valuesGet (valuesDel (valuesDel val0 keyDb) keyIdleTimeout) keyInitCap = [] →
        opts.PoolInitCapacity = 0)
    ∧ (valuesGet (valuesDel (valuesDel val0 keyDb) keyIdleTimeout) keyInitCap ≠ [] →
        Atoi (valuesGet (valuesDel (valuesDel val0 keyDb) keyIdleTimeout) keyInitCap)
          = .ok opts.PoolInitCapacity)
    ∧ (valuesGet (valuesDel (valuesDel (valuesDel val0 keyDb) keyIdleTimeout) keyInitCap)
          keyMaxCap = [] → opts.PoolMaxCapacity = 0)
    ∧ (valuesGet (valuesDel (valuesDel (valuesDel val0 keyDb) keyIdleTimeout) keyInitCap)
          keyMaxCap ≠ [] →
        Atoi (valuesGet (valuesDel (valuesDel (valuesDel val0 keyDb) keyIdleTimeout)
          keyInitCap) keyMaxCap) = .ok opts.PoolMaxCapacity) := by
  simp only [queryOptions] at h
  rcases hidle : (if valuesGet (valuesDel val0 keyDb) keyIdleTimeout = []
      then Except.ok 0
      else ParseDuration (valuesGet (valuesDel val0 keyDb) keyIdleTimeout)) with e | idle
  · rw [hidle] at h; simp at h
  rw [hidle] at h
  rcases hinit : (if valuesGet (valuesDel (valuesDel val0 keyDb) keyIdleTimeout) keyInitCap = []
      then Except.ok 0
      else Atoi (valuesGet (valuesDel (valuesDel val0 keyDb) keyIdleTimeout) keyInitCap))
      with e | initCap
  · rw [hinit] at h; simp at h
  rw [hinit] at h
  rcases hmax : (if valuesGet (valuesDel (valuesDel (valuesDel val0 keyDb) keyIdleTimeout)
        keyInitCap) keyMaxCap = []
      then Except.ok 0
      else Atoi (valuesGet (valuesDel (valuesDel (valuesDel val0 keyDb) keyIdleTimeout)
        keyInitCap) keyMaxCap)) with e | maxCap
  · rw [hmax] at h; simp at h
  rw [hmax] at h
  simp only [Except.ok.injEq] at h
  subst h
  refine ⟨rfl, ?_, ?_, ?_, ?_, ?_, ?_⟩
  · intro hc
    rw [if_pos hc] at hidle
    simp only [Except.ok.injEq] at hidle
    exact hidle.symm
  · intro hc
    rw [if_neg hc] at hidle
    exact hidle
  · intro hc
    rw [if_pos hc] at hinit
    simp only [Except.ok.injEq] at hinit
    exact hinit.symm
  · intro hc
    rw [if_neg hc] at hinit
    exact hinit
  · intro hc
    rw [if_pos hc] at hmax
    simp only [Except.ok.injEq] at hmax
    exact hmax.symm
  · intro hc
    rw [if_neg hc] at hmax
    exact hmax

theorem ParseConfigURL_ok_inv {cs : GoString} {c : Config}
    (h : ParseConfigURL cs = .ok c) :
    ∃ u host port opts,
      urlParse cs = .ok u
      ∧ hostPortOf u.Host = .ok (host, port)
      ∧ queryOptions (ParseQuery u.RawQuery) = .ok opts
      ∧ opts.leftover = []
      ∧ c.DriverName = u.Scheme ∧ c.Raw = cs
      ∧ c.Username = (match u.User with | none => [] | some ui => ui.username)
      ∧ c.Password = (match u.User with | none => [] | some ui => ui.password)
      ∧ c.Hostname = host ∧ c.Port = port
      ∧ c.Instance = (if u.Path.length > 0 then u.Path.drop 1 else [])
      ∧ c.Database = opts.Database
      ∧ c.PoolIdleTimeout = opts.PoolIdleTimeout
      ∧ c.PoolInitCapacity = opts.PoolInitCapacity
      ∧ c.PoolMaxCapacity = opts.PoolMaxCapacity
      ∧ c.Secure = false ∧ c.InsecureSkipVerify = false ∧ c.KV = none := by
  unfold ParseConfigURL at h
  rcases hu : urlParse cs with e | u
  · rw [hu] at h; simp at h
  rw [hu] at h
  simp only [] at h
  rcases hhp : hostPortOf u.Host with e | hp
  · rw [hhp] at h; simp at h
  obtain ⟨host, port⟩ := hp
  rw [hhp] at h
  simp only [] at h
  rcases hqo : queryOptions (ParseQuery u.RawQuery) with e | opts
  · rw [hqo] at h; simp at h
  rw [hqo] at h
  simp only [] at h
  rcases hlo : opts.leftover with _ | ⟨p, ps⟩
  · rw [hlo] at h
    simp only [GoResult.ok.injEq] at h
    subst h
    exact ⟨u, host, port, opts, rfl, hhp, hqo, hlo, rfl, rfl, rfl, rfl, rfl, rfl, rfl,
      rfl, rfl, rfl, rfl, rfl, rfl, rfl⟩
  · rw [hlo] at h; simp at h

/-- C1: decoding the connection string
pg://alice:secret@db.example.com:5432/primary?db=app&init_cap=2&max_cap=10&idle_timeout=30s
succeeds, and the returned Config has Username alice, Password secret,
Hostname db.example.com, Port 5432, Instance primary, Database app,
PoolInitCapacity 2, PoolMaxCapacity 10 and PoolIdleTimeout of thirty
seconds (thirty billion nanoseconds). -/
theorem C1_parse_concrete_roundtrip :
    ParseConfigURL c1Str = .ok c1Cfg
    ∧ c1Cfg.Username = goStr "alice" ∧ c1Cfg.Password = goStr "secret"
    ∧ c1Cfg.Hostname = goStr "db.example.com" ∧ c1Cfg.Port = 5432
    ∧ c1Cfg.Instance = goStr "primary" ∧ c1Cfg.Database = goStr "app"
    ∧ c1Cfg.PoolInitCapacity = 2 ∧ c1Cfg.PoolMaxCapacity = 10
    ∧ c1Cfg.PoolIdleTimeout = 30 * 1000000000 :=
  ⟨by decide, by decide, by decide, by decide, by decide, by decide, by decide,
   by decide, by decide, by decide⟩

/-- C2: the claim that an unrecognized query key is preserved into the
returned Config's KV map fails on the code: the KV map is never
initialized, so the copying loop writes to a nil map and panics.  On the
input pg://h/?foo=bar the query does carry the key foo with value bar,
yet ParseConfigURL panics instead of returning a Config. -/
theorem C2_unknown_key_panics :
    valuesGet (ParseQuery (goStr "foo=bar")) (goStr "foo") = goStr "bar"
    ∧ ParseConfigURL (goStr "pg://h/?foo=bar")
        = .panicked "assignment to entry in nil map" :=
  ⟨by decide, by decide⟩

/-- C3: the claim that every input yields either a Config with nil error
or a nil Config with an error fails on the code: an input with a
leftover query key makes ParseConfigURL panic on the nil KV map, so it
returns neither. -/
theorem C3_panic_breaks_result_dichotomy :
    ParseConfigURL (goStr "pg://h/?a=1") = .panicked "assignment to entry in nil map" := by
  decide

/-- C4: the eight isolation levels carry consecutive ordinals zero
through seven, in the declared order Default, ReadUncommited,
ReadCommited, WriteCommited, RepeatableRead, Serializable, Snapshot,
Linearizable. -/
theorem C4_isolation_ordinals :
    [IsoDefault, IsoReadUncommited, IsoReadCommited, IsoWriteCommited, IsoRepeatableRead,
     IsoSerializable, IsoSnapshot, IsoLinearizable] = [0, 1, 2, 3, 4, 5, 6, 7] := by
  decide

/-- C5, counterexample: the option-free string pg://h/ decodes
successfully, yet the resulting Config has PoolInitCapacity zero, so a
successful ParseConfigURL call does not guarantee the validity
constraint that the initial capacity be positive and at most the
maximum. -/
theorem C5_pool_sizing_counterexample :
    ParseConfigURL (goStr "pg://h/") = .ok c5aCfg
    ∧ ¬ (0 < c5aCfg.PoolInitCapacity
          ∧ c5aCfg.PoolInitCapacity ≤ c5aCfg.PoolMaxCapacity) :=
  ⟨by decide, by decide⟩

/-- C5, amended: ParseConfigURL records the capacity options verbatim
and performs no pool-sizing validation: a successful decode can leave
PoolInitCapacity zero (option absent) and can return
PoolInitCapacity greater than PoolMaxCapacity. -/
theorem C5_no_pool_sizing_validation :
    (ParseConfigURL (goStr "pg://h/") = .ok c5aCfg
      ∧ c5aCfg.PoolInitCapacity = 0 ∧ c5aCfg.PoolMaxCapacity = 0)
    ∧ (ParseConfigURL (goStr "pg://h/?init_cap=5&max_cap=2") = .ok c5bCfg
      ∧ c5bCfg.PoolInitCapacity = 5 ∧ c5bCfg.PoolMaxCapacity = 2
      ∧ ¬ c5bCfg.PoolInitCapacity ≤ c5bCfg.PoolMaxCapacity) :=
  ⟨⟨by decide, by decide, by decide⟩, by decide, by decide, by decide, by decide⟩

/-- C6, counterexample: on the schemeless reference foo/bar the parsed
path is foo/bar (non-empty), and ParseConfigURL strips its first byte
rather than a leading separator: Instance is oo/bar, not the path with
a leading separator removed. -/
theorem C6_instance_counterexample :
    urlParse (goStr "foo/bar") = .ok c6URL
    ∧ c6URL.Path ≠ []
    ∧ ParseConfigURL (goStr "foo/bar") = .ok c6Cfg
    ∧ c6Cfg.Instance ≠ specStripLeadingSeparator c6URL.Path :=
  ⟨by decide, by decide, by decide, by decide⟩

/-- C6, amended: for every successfully decoded connection string the
Instance field is the parsed URL path with its first character removed
(the leading separator whenever the path starts with one, as it always
does when the URL has a scheme or an authority); an empty path gives an
empty Instance. -/
theorem C6_instance_amended (cs : GoString) (c : Config) (u : URL)
    (hc : ParseConfigURL cs = .ok c) (hu : urlParse cs = .ok u) :
    c.Instance = u.Path.drop 1 := by
  obtain ⟨u1, host, port, opts, hu1, _, _, _, _, _, _, _, _, _,
    hinst, _, _, _, _, _, _, _⟩ := ParseConfigURL_ok_inv hc
  rw [hu] at hu1
  injection hu1 with he
  subst he
  rw [hinst]
  by_cases hp : u.Path.length > 0
  · rw [if_pos hp]
  · rw [if_neg hp]
    have hnil : u.Path = [] := List.length_eq_zero.mp (by omega)
    rw [hnil]
    rfl

/-- C6, witness for the amended statement at the concrete string wStr. -/
theorem C6_instance_amended_witness :
    ParseConfigURL wStr = .ok wCfg ∧ urlParse wStr = .ok wURL
    ∧ wCfg.Instance = wURL.Path.drop 1 := by
  have h1 : ParseConfigURL wStr = .ok wCfg := by decide
  have h2 : urlParse wStr = .ok wURL := by decide
  exact ⟨h1, h2, C6_instance_amended wStr wCfg wURL h1 h2⟩

/-- C7: on every successful decode the recognized options map to their
designated fields: Database is the first db value (empty when absent),
PoolIdleTimeout is the parsed idle_timeout when that option is present
and non-empty and zero otherwise, PoolInitCapacity and PoolMaxCapacity
likewise via Atoi, and the KV map of the returned Config is nil, so in
particular none of the four recognized keys appears in it. -/
theorem C7_query_options (cs : GoString) (c : Config) (u : URL)
    (hc : ParseConfigURL cs = .ok c) (hu : urlParse cs = .ok u) :
    c.Database = valuesGet (ParseQuery u.RawQuery) keyDb
    ∧ (valuesGet (ParseQuery u.RawQuery) keyIdleTimeout = [] → c.PoolIdleTimeout = 0)
    ∧ (valuesGet (ParseQuery u.RawQuery) keyIdleTimeout ≠ [] →
        ParseDuration (valuesGet (ParseQuery u.RawQuery) keyIdleTimeout)
          = .ok c.PoolIdleTimeout)
    ∧ (valuesGet (ParseQuery u.RawQuery) keyInitCap = [] → c.PoolInitCapacity = 0)
    ∧ (valuesGet (ParseQuery u.RawQuery) keyInitCap ≠ [] →
        Atoi (valuesGet (ParseQuery u.RawQuery) keyInitCap) = .ok c.PoolInitCapacity)
    ∧ (valuesGet (ParseQuery u.RawQuery) keyMaxCap = [] → c.PoolMaxCapacity = 0)
    ∧ (valuesGet (ParseQuery u.RawQuery) keyMaxCap ≠ [] →
        Atoi (valuesGet (ParseQuery u.RawQuery) keyMaxCap) = .ok c.PoolMaxCapacity)
    ∧ c.KV = none := by
  obtain ⟨u1, host, port, opts, hu1, hhp, hqo, hlo, hdrv, hraw, husr, hpwd, hhost, hport,
    hinst, hdb, hidle, hinitc, hmaxc, hsec, hskip, hkv⟩ := ParseConfigURL_ok_inv hc
  rw [hu] at hu1
  injection hu1 with he
  subst he
  obtain ⟨q1, q2, q3, q4, q5, q6, q7⟩ := queryOptions_ok_inv hqo
  have e1 : valuesGet (valuesDel (ParseQuery u.RawQuery) keyDb) keyIdleTimeout
      = valuesGet (ParseQuery u.RawQuery) keyIdleTimeout :=
    valuesGet_del_ne _ _ _ (by decide)
  have e2 : valuesGet (valuesDel (valuesDel (ParseQuery u.RawQuery) keyDb) keyIdleTimeout)
        keyInitCap
      = valuesGet (ParseQuery u.RawQuery) keyInitCap := by
    rw [valuesGet_del_ne _ _ _ (by decide), valuesGet_del_ne _ _ _ (by decide)]
  have e3 : valuesGet (valuesDel (valuesDel (valuesDel (ParseQuery u.RawQuery) keyDb)
        keyIdleTimeout) keyInitCap) keyMaxCap
      = valuesGet (ParseQuery u.RawQuery) keyMaxCap := by
    rw [valuesGet_del_ne _ _ _ (by decide), valuesGet_del_ne _ _ _ (by decide),
      valuesGet_del_ne _ _ _ (by decide)]
  refine ⟨hdb.trans q1, ?_, ?_, ?_, ?_, ?_, ?_, hkv⟩
  · intro hcnd
    exact hidle.trans (q2 (e1.trans hcnd))
  · intro hcnd
    have h3 := q3 (by rw [e1]; exact hcnd)
    rw [e1] at h3
    rw [hidle]
    exact h3
  · intro hcnd
    exact hinitc.trans (q4 (e2.trans hcnd))
  · intro hcnd
    have h5 := q5 (by rw [e2]; exact hcnd)
    rw [e2] at h5
    rw [hinitc]
    exact h5
  · intro hcnd
    exact hmaxc.trans (q6 (e3.trans hcnd))
  · intro hcnd
    have h7 := q7 (by rw [e3]; exact hcnd)
    rw [e3] at h7
    rw [hmaxc]
    exact h7

/-- C7, witness at the concrete string wStr, which carries all four
recognized options. -/
theorem C7_query_options_witness :
    ParseConfigURL wStr = .ok wCfg ∧ urlParse wStr = .ok wURL
    ∧ wCfg.Database = valuesGet (ParseQuery wURL.RawQuery) keyDb
    ∧ wCfg.KV = none
    ∧ ParseDuration (valuesGet (ParseQuery wURL.RawQuery) keyIdleTimeout)
        = .ok wCfg.PoolIdleTimeout := by
  have h1 : ParseConfigURL wStr = .ok wCfg := by decide
  have h2 : urlParse wStr = .ok wURL := by decide
  have H := C7_query_options wStr wCfg wURL h1 h2
  exact ⟨h1, h2, H.1, H.2.2.2.2.2.2.2, H.2.2.1 (by decide)⟩

/-- C8: the URL host is split on colons: the text before the first
colon becomes Hostname; when the host contains a colon the second
segment must parse as a decimal unsigned 16-bit port or the whole decode
fails with that error, and segments past the second are ignored (the
port is determined by the second segment alone); a host without a colon
leaves Port zero. -/
theorem C8_host_port (cs : GoString) (u : URL) (c : Config)
    (hu : urlParse cs = .ok u) :
    (∀ e, 1 < (splitOnByte u.Host 58).length →
        parseUint16 ((splitOnByte u.Host 58).getD 1 []) = .error e →
        ParseConfigURL cs = .err e)
    ∧ (ParseConfigURL cs = .ok c →
        c.Hostname = u.Host.takeWhile (fun b => !(b == 58))
        ∧ (1 < (splitOnByte u.Host 58).length →
            ∃ n, parseUint16 ((splitOnByte u.Host 58).getD 1 []) = .ok n ∧ c.Port = (n : Int))
        ∧ (u.Host.contains 58 = false → c.Port = 0)) := by
  constructor
  · intro e h1 h2
    exact ParseConfigURL_err_of_hostPort hu (hostPortOf_error h1 h2)
  · intro hok
    obtain ⟨u1, host, port, opts, hu1, hhp, hqo, hlo, hdrv, hraw, husr, hpwd, hhost, hport,
      hinst, hdb, hidle, hinitc, hmaxc, hsec, hskip, hkv⟩ := ParseConfigURL_ok_inv hok
    rw [hu] at hu1
    injection hu1 with he
    subst he
    obtain ⟨p1, p2, p3⟩ := hostPortOf_ok_inv hhp
    refine ⟨?_, ?_, ?_⟩
    · rw [hhost, p1, splitOnByte_headD]
    · intro hl
      obtain ⟨n, hn, hpn⟩ := p2 hl
      exact ⟨n, hn, by rw [hport, hpn]⟩
    · intro hcf
      have hnl : ¬ 1 < (splitOnByte u.Host 58).length := by
        rw [splitOnByte_gt_one_iff, hcf]
        exact Bool.false_ne_true
      rw [hport]
      exact p3 hnl

/-- C8, witness at the concrete string wStr, whose host h:7:9 has two
colons: the hostname is the text before the first colon. -/
theorem C8_host_port_witness :
    urlParse wStr = .ok wURL ∧ ParseConfigURL wStr = .ok wCfg
    ∧ wCfg.Hostname = wURL.Host.takeWhile (fun b => !(b == 58)) := by
  have h2 : urlParse wStr = .ok wURL := by decide
  have h1 : ParseConfigURL wStr = .ok wCfg := by decide
  exact ⟨h2, h1, ((C8_host_port wStr wURL wCfg h2).2 h1).1⟩

/-- C9: every successful decode returns the input connection string
verbatim in Raw and the parsed URL scheme in DriverName. -/
theorem C9_raw_and_driver (cs : GoString) (c : Config) (u : URL)
    (hc : ParseConfigURL cs = .ok c) (hu : urlParse cs = .ok u) :
    c.Raw = cs ∧ c.DriverName = u.Scheme := by
  obtain ⟨u1, host, port, opts, hu1, _, _, _, hdrv, hraw, _, _, _, _,
    _, _, _, _, _, _, _, _⟩ := ParseConfigURL_ok_inv hc
  rw [hu] at hu1
  injection hu1 with he
  subst he
  exact ⟨hraw, hdrv⟩

/-- C9, witness at the concrete string wStr. -/
theorem C9_raw_and_driver_witness :
    ParseConfigURL wStr = .ok wCfg ∧ urlParse wStr = .ok wURL
    ∧ wCfg.Raw = wStr ∧ wCfg.DriverName = wURL.Scheme := by
  have h1 : ParseConfigURL wStr = .ok wCfg := by decide
  have h2 : urlParse wStr = .ok wURL := by decide
  obtain ⟨a, b⟩ := C9_raw_and_driver wStr wCfg wURL h1 h2
  exact ⟨h1, h2, a, b⟩

/-- C10: the claim that ParseConfigURL never panics fails on the code:
copying leftover query keys into the uninitialized (nil) KV map is a
runtime panic, as on this input with two unrecognized keys. -/
theorem C10_nil_map_panic :
    ParseConfigURL (goStr "pg://h/?k=v&k2=v2")
      = .panicked "assignment to entry in nil map" := by
  decide

end Rdb
